import Mathlib

/-!
Verification of the location timeline reduction and geocode-aggregation
pipeline of the web-location-analyzer repository.

The Python source is embedded shallowly:
* machine floats are modelled as rationals (`ℚ`) where the code only moves
  them around, compares them, or does exact arithmetic, and as reals (`ℝ`)
  where transcendental functions (`sin`, `cos`, `atan2`, `sqrt`) appear;
* Python dicts used as maps are association lists with replace-or-add
  insertion (`dinsert`) and first-match lookup (`dlookup`);
* network interaction is an oracle: each lookup consumes a list of
  `ProviderResponse` values describing what the provider did;
* exceptions that the source catches locally are `Option`/placeholder
  results, exactly following each `try`/`except` block.
-/

/-- First-match lookup in an association list (Python `dict` read). -/
def dlookup {α β : Type} [DecidableEq α] (k : α) : List (α × β) → Option β
  | [] => none
  | (k', v) :: rest => if k' = k then some v else dlookup k rest

/-- Replace-or-add insertion in an association list (Python `dict` write). -/
def dinsert {α β : Type} [DecidableEq α] (k : α) (v : β) : List (α × β) → List (α × β)
  | [] => [(k, v)]
  | (k', v') :: rest => if k' = k then (k, v) :: rest else (k', v') :: dinsert k v rest

/-- Add `d` to the entry of `k` in a total ledger (Python `defaultdict(float)` update). -/
def bump (f : String → ℚ) (k : String) (d : ℚ) : String → ℚ :=
  fun k' => if k' = k then f k + d else f k'

/-- Python `round(x)`: round half to even, as an integer.  The fractional
part `q - ⌊q⌋` is compared with `1/2` through the integer quantity
`r2 = 2·(num - ⌊q⌋·den)`, so that the whole computation stays in `ℤ`. -/
def pyRound (q : ℚ) : ℤ :=
  let f := q.floor
  let r2 := 2 * (q.num - f * (q.den : ℤ))
  if r2 < (q.den : ℤ) then f
  else if r2 > (q.den : ℤ) then f + 1
  else if f % 2 = 0 then f else f + 1

/-- Python `round(x, 5)`: `round(x·10⁵)/10⁵` (the scaling is written on the
numerator to stay kernel-computable). -/
def round5 (q : ℚ) : ℚ := mkRat (pyRound (mkRat (q.num * 100000) q.den)) 100000

/-- Python `round(x, 4)`: `round(x·10⁴)/10⁴`. -/
def round4 (q : ℚ) : ℚ := mkRat (pyRound (mkRat (q.num * 10000) q.den)) 10000

/-- Structural splitter over character lists (the fuel is an upper bound on
the list length, keeping the recursion kernel-computable).  Mirrors Python
`str.split(sep)` for a non-empty separator. -/
def splitOnFuel (sep : List Char) : ℕ → List Char → List Char → List (List Char)
  | 0, _, acc => [acc]
  | fuel + 1, l, acc =>
    match l with
    | [] => [acc]
    | c :: rest =>
      if sep ≠ [] ∧ (c :: rest).take sep.length = sep then
        acc :: splitOnFuel sep fuel ((c :: rest).drop sep.length) []
      else splitOnFuel sep fuel rest (acc ++ [c])

/-- Python `s.split(sep)` (component character lists). -/
def strSplitOn (s sep : String) : List (List Char) :=
  splitOnFuel sep.toList s.toList.length s.toList []

/-- Python `sub in s` for a fixed non-empty token `sub`. -/
def strContains (s sub : String) : Bool := (strSplitOn s sub).length > 1

/-- Python `s.lower()` (ASCII, which covers every token the source compares). -/
def strToLower (s : String) : String := String.mk (s.toList.map Char.toLower)

/-- Adjacent pairs of a list: `[a,b,c] ↦ [(a,b),(b,c)]`. -/
def adjPairs {α : Type} (l : List α) : List (α × α) := l.zip l.tail

/-! ## GeocodingStats (geo_utils.py lines 24-92) -/

/-- The mutable counter fields of `geo_utils.GeocodingStats` (all Python ints,
initialised to zero by `reset`).  The lock only serialises updates and is not
part of the sequential state. -/
structure GeocodingStats where
  cache_hits : ℕ
  api_calls : ℕ
  errors : ℕ
  water_cache_hits : ℕ
  water_api_calls : ℕ
  water_errors : ℕ
  batch_requests : ℕ
  total_coordinates_in_batches : ℕ
deriving DecidableEq, Repr

/-- `GeocodingStats.reset`: all counters zero. -/
def statsReset : GeocodingStats := ⟨0, 0, 0, 0, 0, 0, 0, 0⟩

/-- `GeocodingStats.record_cache_hit(is_water)`. -/
def record_cache_hit (is_water : Bool) (s : GeocodingStats) : GeocodingStats :=
  if is_water then { s with water_cache_hits := s.water_cache_hits + 1 }
  else { s with cache_hits := s.cache_hits + 1 }

/-- `GeocodingStats.record_api_call(is_water, coordinates_count)`. -/
def record_api_call (is_water : Bool) (coordinates_count : ℕ) (s : GeocodingStats) :
    GeocodingStats :=
  if is_water then { s with water_api_calls := s.water_api_calls + coordinates_count }
  else { s with api_calls := s.api_calls + coordinates_count }

/-- `GeocodingStats.record_batch_request(coordinates_count)`. -/
def record_batch_request (coordinates_count : ℕ) (s : GeocodingStats) : GeocodingStats :=
  { s with batch_requests := s.batch_requests + 1,
           total_coordinates_in_batches := s.total_coordinates_in_batches + coordinates_count,
           api_calls := s.api_calls + coordinates_count }

/-- `GeocodingStats.record_error(is_water)`. -/
def record_error (is_water : Bool) (s : GeocodingStats) : GeocodingStats :=
  if is_water then { s with water_errors := s.water_errors + 1 }
  else { s with errors := s.errors + 1 }

/-- One recording operation on the shared statistics object. -/
inductive StatsOp where
  | cacheHit (is_water : Bool)
  | apiCall (is_water : Bool) (coordinates_count : ℕ)
  | batchRequest (coordinates_count : ℕ)
  | error (is_water : Bool)
  | reset
deriving DecidableEq, Repr

/-- Apply one operation to the counters. -/
def applyStatsOp (s : GeocodingStats) : StatsOp → GeocodingStats
  | .cacheHit w => record_cache_hit w s
  | .apiCall w n => record_api_call w n s
  | .batchRequest n => record_batch_request n s
  | .error w => record_error w s
  | .reset => statsReset

/-- The `'geocoding'` sub-dictionary built by `GeocodingStats.get_stats`. -/
structure GeoStatsReport where
  cache_hits : ℕ
  api_calls : ℕ
  errors : ℕ
  total : ℕ
  batch_requests : ℕ
  avg_batch_size : ℚ
deriving DecidableEq, Repr

/-- The `'water_detection'` sub-dictionary built by `GeocodingStats.get_stats`. -/
structure WaterStatsReport where
  cache_hits : ℕ
  api_calls : ℕ
  errors : ℕ
  total : ℕ
deriving DecidableEq, Repr

/-- `GeocodingStats.get_stats` (geo_utils.py lines 74-92). -/
def get_stats (s : GeocodingStats) : GeoStatsReport × WaterStatsReport :=
  (⟨s.cache_hits, s.api_calls, s.errors, s.cache_hits + s.api_calls + s.errors,
    s.batch_requests,
    (s.total_coordinates_in_batches : ℚ) / (max 1 s.batch_requests : ℕ)⟩,
   ⟨s.water_cache_hits, s.water_api_calls, s.water_errors,
    s.water_cache_hits + s.water_api_calls + s.water_errors⟩)

/-! ## Haversine distance (geo_utils.py lines 402-410, identical copies in
location_analyzer.py lines 405-418 and modern_analyzer_bridge.py lines 54-64) -/

/-- `math.radians`. -/
noncomputable def radians (x : ℝ) : ℝ := x * Real.pi / 180

/-- `math.atan2 y x` with the C/Python quadrant convention. -/
noncomputable def atan2 (y x : ℝ) : ℝ :=
  if 0 < x then Real.arctan (y / x)
  else if x < 0 ∧ 0 ≤ y then Real.arctan (y / x) + Real.pi
  else if x < 0 then Real.arctan (y / x) - Real.pi
  else if 0 < y then Real.pi / 2
  else if y < 0 then -(Real.pi / 2)
  else 0

/-- `geo_utils.haversine_distance` (Earth radius 3958.8 miles). -/
noncomputable def haversine_distance (lat1 lon1 lat2 lon2 : ℝ) : ℝ :=
  let R : ℝ := 3958.8
  let phi1 := radians lat1
  let phi2 := radians lat2
  let delta_phi := radians (lat2 - lat1)
  let delta_lambda := radians (lon2 - lon1)
  let a := Real.sin (delta_phi / 2) ^ 2 +
    Real.cos phi1 * Real.cos phi2 * Real.sin (delta_lambda / 2) ^ 2
  let c := 2 * atan2 (Real.sqrt a) (Real.sqrt (1 - a))
  R * c

/-! ## sample_points (parser_app.py lines 197-222)

`max_points` is a Python int; the claims only exercise non-negative values,
modelled as `ℕ`. The list elements are opaque (the source samples dicts
without inspecting them). -/

/-- The middle-point selection loop of `LocationProcessor.sample_points`
(`for i in range(1, middle_count + 1)` with `index = int(round(i * step_size))`,
keeping `points[index]` when `index < len(points) - 1`). -/
def sampleMiddle {α : Type} (points : List α) (max_points : ℕ) : List α :=
  let middle_count := max_points - 2
  let step_size : ℚ := ((points.length : ℚ) - 1) / ((middle_count : ℚ) + 1)
  (List.range middle_count).filterMap fun j =>
    let idx := (pyRound (((j + 1 : ℕ) : ℚ) * step_size)).toNat
    if idx < points.length - 1 then points.get? idx else none

/-- `LocationProcessor.sample_points`. -/
def sample_points {α : Type} (points : List α) (max_points : ℕ) : List α :=
  if points.length ≤ max_points then points
  else if max_points < 2 then points.take 1
  else
    (points.take 1 ++ sampleMiddle points max_points) ++
      (if 1 < points.length then (points.getLast?).toList else [])

/-! ## Mode classification (legacy_analyzer.py, generate_city_jump_csv lines 206-327)

The per-jump mode decision is a pure function of the raw activity label, the
previous place label, the destination's country and place name, distance
(miles) and duration (hours), plus the water information consulted in the
mid-range branch: the jump-cache lookup outcome and the per-sample
`is_over_water` answers, both supplied as oracle arguments. -/

/-- The `mode_map` dict literal (lines 206-221). -/
def mode_map : List (String × String) :=
  [("in train", "Train"), ("in passenger vehicle", "Car"), ("walking", "Walking"),
   ("in ferry", "Ferry"), ("slow_mobility", "Walking"), ("fast_mobility", "Car"),
   ("medium_mobility", "Car"), ("flying", "Flight"), ("sailing", "Ferry"),
   ("skiing", "Unknown"), ("unknown", "Unknown"), ("in subway", "Train"),
   ("in tram", "Train"), ("stationary", "Walking")]

/-- `coastal_countries` (line 223). -/
def coastal_countries : List String := ["Croatia", "Montenegro"]

/-- `prev_country = prev_city.split(", ")[-1] if ", " in prev_city else prev_city`
(line 273). -/
def prevCountryOf (prev_city : String) : String :=
  let parts := strSplitOn prev_city ", "
  if parts.length > 1 then String.mk (parts.getLastD prev_city.toList) else prev_city

/-- The water-branch override of lines 281-317 once `0.5 < distance < 100`:
on a jump-cache hit the mode is left unchanged; on a miss the sampled
`is_over_water` answers decide Ferry/Boat/Car/Walking. -/
def waterBranchMode (mode0 : String) (country place_name : String) (distance : ℚ)
    (jump_cache : Option Bool) (water_checks : List (Option Bool)) : String :=
  match jump_cache with
  | some _ => mode0
  | none =>
    let water_count := (water_checks.filter (fun w => w = some true)).length
    let is_water := water_count > 0 ∨
      strContains (strToLower place_name) "waters" = true ∨
      strContains (strToLower place_name) "sea" = true
    if is_water ∨ (country ∈ coastal_countries ∧ distance < 2) then
      (if distance > 2 then "Ferry" else "Boat")
    else if country ∈ coastal_countries ∧ distance > 2 ∧
        ¬ strContains (strToLower place_name) "inland" = true then "Ferry"
    else if distance > 2 then "Car"
    else "Walking"

/-- The full layered mode decision for one jump (lines 257-327): raw-label
mapping, trusted-label short-circuit, international/coastal/water overrides,
then the short-duration flight reclassification and the walking restriction. -/
def city_jump_mode (raw_mode prev_city country place_name : String)
    (distance duration_hrs : ℚ)
    (jump_cache : Option Bool) (water_checks : List (Option Bool)) : String :=
  let mode0 := (dlookup raw_mode mode_map).getD "Unknown"
  let mode1 :=
    if mode0 = "Flight" ∨ mode0 = "Train" ∨ mode0 = "Ferry" ∨ mode0 = "Walking" then mode0
    else
      let prev_country := prevCountryOf prev_city
      let is_international :=
        country ≠ prev_country ∧ country ≠ "Unknown" ∧ prev_country ≠ "Unknown"
      if (raw_mode = "in passenger vehicle" ∨ raw_mode = "unknown") ∧ is_international ∧
          (distance > 20 ∨ duration_hrs < mkRat 3 2) then "Flight"
      else if (raw_mode = "unknown" ∨ raw_mode = "walking") ∧
          country ∈ coastal_countries ∧ distance < 2 then "Boat"
      else if mkRat 1 2 < distance ∧ distance < 100 then
        waterBranchMode mode0 country place_name distance jump_cache water_checks
      else mode0
  let mode2 :=
    if (mode1 = "Ferry" ∨ mode1 = "Car" ∨ mode1 = "Train") ∧ duration_hrs < mkRat 1 2 ∧
        distance > 10 then "Flight"
    else mode1
  if mode2 = "Walking" ∧ (distance > 2 ∨ duration_hrs > mkRat 1 2) then "Car" else mode2

/-! ## Coordinate parsing (parser_app.py lines 145-176; location_analyzer.py
lines 163-184; modern_analyzer_bridge.py lines 106-121)

A `geo:` string is modelled after tokenisation: `coord_input.replace("geo:",
"").split(",")` yields the component list, and each component is the result of
Python `float()` on it (`none` when `float()` raises, which every parser
catches and turns into a drop). -/

/-- The possible shapes of `coord_input` in `LocationProcessor.parse_coordinates`. -/
inductive CoordInput where
  /-- a string starting with `geo:`, given by its comma-split float-parsed parts -/
  | geoStr (parts : List (Option ℚ))
  /-- a dict with `latitudeE7`/`longitudeE7` numeric fields -/
  | e7Obj (latE7 lonE7 : ℚ)
  /-- a dict with decimal `latitude`/`longitude` fields -/
  | decObj (lat lon : ℚ)
  /-- a dict with neither coordinate pair -/
  | otherDict
  /-- a string not starting with `geo:` -/
  | nonGeoStr
  /-- a falsy input (`None`, empty string) -/
  | falsy
deriving DecidableEq

/-- `LocationProcessor.parse_coordinates` (parser_app.py lines 145-176):
the only parser with the `-90 <= lat <= 90 and -180 <= lon <= 180` check. -/
def parse_coordinates : CoordInput → Option (ℚ × ℚ)
  | .falsy => none
  | .nonGeoStr => none
  | .geoStr parts =>
    match parts with
    | [some lat, some lon] =>
      if -90 ≤ lat ∧ lat ≤ 90 ∧ -180 ≤ lon ∧ lon ≤ 180 then some (lat, lon) else none
    | _ => none
  | .e7Obj a b => some (a / 10000000, b / 10000000)
  | .decObj a b => some (a, b)
  | .otherDict => none

/-- The geo-string coordinate extraction of `LocationAnalyzer.parse_location_data`
(location_analyzer.py lines 165-168) and of `run_modern_analysis`
(modern_analyzer_bridge.py lines 113-116): `len(latlon) == 2` plus `float()`,
with no range check. -/
def la_parse_geo : List (Option ℚ) → Option (ℚ × ℚ)
  | [some lat, some lon] => some (lat, lon)
  | _ => none

/-- One activity-start point emission of `parse_location_data`
(location_analyzer.py lines 163-173): coordinates from the geo string, the
point appended exactly when the timestamp's date is in range (abstracted as
`in_range`); any `float()` failure is caught and the point silently dropped. -/
structure LAPoint where
  ts : ℚ
  lat : ℚ
  lon : ℚ
deriving DecidableEq, Repr

/-- Point emission for one activity-start record. -/
def la_activity_start_point (in_range : Bool) (geo : List (Option ℚ)) (ts : ℚ) :
    Option LAPoint :=
  match la_parse_geo geo with
  | none => none
  | some (lat, lon) => if in_range then some ⟨ts, lat, lon⟩ else none

/-! ## Time-per-place aggregation

Two implementations are claimed: `LocationAnalyzer.generate_time_reports`
(location_analyzer.py lines 374-403) and the ledger loop of
`legacy_analyzer.process_location_file` (lines 128-176). -/

/-- `location_analyzer.GeocodeResult` (frozen dataclass). -/
structure GeocodeResult where
  city : Option String
  state : Option String
  country : Option String
  place_name : String
  is_water : Bool
deriving DecidableEq, Repr

/-- Python f-string rendering of an `Optional[str]` (`None` prints as "None"). -/
def pyOptStr : Option String → String
  | none => "None"
  | some s => s

/-- `city_key = f"{last_result.city}, {last_result.country}"` (line 391). -/
def cityKeyOf (r : GeocodeResult) : String :=
  pyOptStr r.city ++ ", " ++ pyOptStr r.country

/-- `state_key` of lines 394-397 (`state or "Unknown US State"` /
`country or "Unknown"`, where `or` replaces both `None` and `""`). -/
def stateKeyOf (r : GeocodeResult) : String :=
  if r.country = some "United States" then
    match r.state with
    | some s => if s = "" then "Unknown US State" else s
    | none => "Unknown US State"
  else
    match r.country with
    | some c => if c = "" then "Unknown" else c
    | none => "Unknown"

/-- The loop of `generate_time_reports`: points without a geocode entry are
skipped (`if point not in geocode_results: continue`); each surviving point
adds the gap since the previous surviving point, in fractional days, to the
keys derived from the previous point's result. -/
def grLoop (geocode : LAPoint → Option GeocodeResult) :
    List LAPoint → Option (LAPoint × GeocodeResult) →
    (String → ℚ) → (String → ℚ) → (String → ℚ) × (String → ℚ)
  | [], _, ct, st => (ct, st)
  | p :: ps, lastOpt, ct, st =>
    match geocode p with
    | none => grLoop geocode ps lastOpt ct st
    | some r =>
      match lastOpt with
      | none => grLoop geocode ps (some (p, r)) ct st
      | some (lp, lr) =>
        let td := (p.ts - lp.ts) / 86400
        grLoop geocode ps (some (p, r))
          (bump ct (cityKeyOf lr) td) (bump st (stateKeyOf lr) td)

/-- `LocationAnalyzer.generate_time_reports` (city ledger, state ledger). -/
def generate_time_reports (geocode : LAPoint → Option GeocodeResult)
    (points : List LAPoint) : (String → ℚ) × (String → ℚ) :=
  grLoop geocode points none (fun _ => 0) (fun _ => 0)

/-- The raw result dict of `geo_utils.reverse_geocode` /
`single_reverse_geocode_fixed`; absent-or-`None` dict keys are `none`. -/
structure GeoDict where
  city : Option String
  state : Option String
  country : Option String
  place : String
  is_water : Bool
deriving DecidableEq, Repr

/-- A parsed legacy point `(dt, lat, lon)` (legacy_analyzer.py), timestamp in
epoch seconds. -/
structure LegacyPoint where
  ts : ℚ
  lat : ℚ
  lon : ℚ
deriving DecidableEq, Repr

/-- `place` selection of legacy_analyzer.py lines 150-160 (the `or` fallback
replaces `None` and `""`). -/
def legacyPlace (by_city : Bool) (loc : GeoDict) : String :=
  if by_city then
    match loc.city with
    | some c => if c = "" then "Unknown" else c
    | none => "Unknown"
  else
    if loc.country = some "United States" then
      match loc.state with
      | some s => if s = "" then "Unknown US State" else s
      | none => "Unknown US State"
    else
      match loc.country with
      | some c => if c = "" then "Unknown" else c
      | none => "Unknown"

/-- The ledger loop of `process_location_file` (legacy_analyzer.py lines
135-176, ledger aspects): for every point after the first,
`city_time[place].append(time_diff)` where `place` belongs to the CURRENT
point; the final per-place sums of `aggregated_city_time` are accumulated
directly.  `reverse_geocode` is a total oracle (its Python result dict is
always non-empty, so `if not loc: continue` never fires). -/
def legacyLoop (geocode : ℚ × ℚ → GeoDict) (by_city : Bool) :
    List LegacyPoint → Option ℚ → (String → ℚ) → (String → ℚ)
  | [], _, ct => ct
  | p :: ps, lastDt, ct =>
    let loc := geocode (p.lat, p.lon)
    let place := legacyPlace by_city loc
    match lastDt with
    | none => legacyLoop geocode by_city ps (some p.ts) ct
    | some lt => legacyLoop geocode by_city ps (some p.ts) (bump ct place ((p.ts - lt) / 86400))

/-- The aggregated city-time ledger of `process_location_file`. -/
def legacy_city_time (geocode : ℚ × ℚ → GeoDict) (by_city : Bool)
    (coords : List LegacyPoint) : String → ℚ :=
  legacyLoop geocode by_city coords none (fun _ => 0)

/-! ## Significance filter (location_analyzer.py lines 240-259, and the same
inline loop with thresholds 0.5 mi / 0.5 h in modern_analyzer_bridge.py lines
204-217) -/

/-- The two filter thresholds of `AnalysisConfig` (`min_distance_filter` in
miles, `min_time_filter` in hours). -/
structure AnalysisConfig where
  min_distance_filter : ℝ
  min_time_filter : ℚ

/-- The keep condition of `filter_significant_points`:
`distance > min_distance_filter or time_diff > min_time_filter` with
`time_diff` in hours. -/
def significant (cfg : AnalysisConfig) (last p : LAPoint) : Prop :=
  haversine_distance (last.lat : ℝ) (last.lon : ℝ) (p.lat : ℝ) (p.lon : ℝ) >
      cfg.min_distance_filter ∨
    (p.ts - last.ts) / 3600 > cfg.min_time_filter

noncomputable instance (cfg : AnalysisConfig) (last p : LAPoint) :
    Decidable (significant cfg last p) := by
  unfold significant; infer_instance

/-- The loop of `filter_significant_points` over `points[1:]`, carrying
`last_point` (the last retained point). -/
noncomputable def filterLoop (cfg : AnalysisConfig) (last : LAPoint) :
    List LAPoint → List LAPoint
  | [] => []
  | p :: ps =>
    if significant cfg last p then p :: filterLoop cfg p ps
    else filterLoop cfg last ps

/-- `LocationAnalyzer.filter_significant_points`. -/
noncomputable def filter_significant_points (cfg : AnalysisConfig) :
    List LAPoint → List LAPoint
  | [] => []
  | p :: ps => p :: filterLoop cfg p ps

/-! ## Geocoding client (geo_utils.py lines 139-290)

The network is an oracle: each call to `single_reverse_geocode_fixed`
consumes the head of a per-coordinate list of `ProviderResponse`s.  A 429
response makes the source recurse on itself after `asyncio.sleep(1)`; the
model consumes the next response of the list, so an all-429 list (which makes
the source recurse forever) surfaces as `none`.  `asyncio.sleep` timing and
`save_geo_cache` persistence have no in-process effect and are not modelled,
except that every retry backoff `asyncio.sleep(1)` is recorded in
`GeoEnv.delays`. -/

/-- The `properties` of the first Geoapify feature. -/
structure GeoProps where
  name : Option String
  city : Option String
  county : Option String
  state : Option String
  country : Option String
  category : Option String
  klass : Option String
deriving DecidableEq, Repr

/-- One provider interaction outcome for a reverse-geocode request. -/
inductive ProviderResponse where
  /-- HTTP 200 with a non-empty `features` list (its first properties) or an
  empty one (`none`) -/
  | ok (props : Option GeoProps)
  /-- HTTP 429 -/
  | rateLimited
  /-- any other HTTP status -/
  | httpError (code : ℕ)
  /-- `asyncio.TimeoutError` -/
  | netTimeout
  /-- any other exception -/
  | netError (msg : String)
deriving DecidableEq, Repr

/-- Whether a response is the 429 that triggers the retry recursion. -/
def ProviderResponse.isRateLimited : ProviderResponse → Bool
  | .rateLimited => true
  | _ => false

/-- The success dict built from the feature properties (geo_utils.py lines
251-260): `city` falls back to `county`, `place` is the lowered name, and
`is_water` combines the category/class test with the token scan. -/
def resultFromProps (p : GeoProps) : GeoDict :=
  let place_name := strToLower (p.name.getD "")
  { city := p.city <|> p.county
    state := p.state
    country := p.country
    place := place_name
    is_water := (p.category = some "natural" ∧ p.klass = some "water") ∨
      (["waters", "sea", "ocean", "bay", "channel"].any
        fun w => strContains place_name w) = true }

/-- The empty-features result (line 262). -/
def openWaterDict : GeoDict :=
  { city := some "Unknown", state := some "", country := some "", place := "open water",
    is_water := true }

/-- The non-429 HTTP-error / missing-key fallback result (line 277). -/
def geocodingFailedDict : GeoDict :=
  { city := some "Unknown", state := some "", country := some "",
    place := "geocoding failed", is_water := true }

/-- The `asyncio.TimeoutError` result (line 283). -/
def timeoutDict : GeoDict :=
  { city := some "Unknown", state := some "", country := some "", place := "timeout",
    is_water := true }

/-- The generic-exception result (line 288). -/
def errorDict (msg : String) : GeoDict :=
  { city := some "Unknown", state := some "", country := some "",
    place := "error: " ++ msg, is_water := true }

/-- A geocoding coordinate (raw float pair). -/
abbrev Coord : Type := ℚ × ℚ

/-- The 5-decimal cache key `f"{round(lat, 5)},{round(lon, 5)}"`, as the pair
of rounded values (distinct rounded values render as distinct strings). -/
def key5 (c : Coord) : Coord := (round5 c.1, round5 c.2)

/-- The 4-decimal fallback cache key. -/
def key4 (c : Coord) : Coord := (round4 c.1, round4 c.2)

/-- The process state threaded through the geocoding client: the `geo_cache`
dict, the shared statistics, and the recorded retry backoffs. -/
structure GeoEnv where
  cache : List (Coord × GeoDict)
  stats : GeocodingStats
  delays : List ℚ
deriving DecidableEq, Repr

/-- `single_reverse_geocode_fixed` (geo_utils.py lines 226-290), consuming
its provider interactions from `trace`.  `none` means the source would never
return (an unbounded 429 retry chain). -/
def single_reverse_geocode_fixed (lat lon : ℚ) (has_key : Bool) :
    List ProviderResponse → GeoEnv → Option (GeoDict × GeoEnv)
  | trace, env =>
    let k := key5 (lat, lon)
    match dlookup k env.cache with
    | some r => some (r, { env with stats := record_cache_hit false env.stats })
    | none =>
      if has_key then
        match trace with
        | [] => none
        | resp :: rest =>
          match resp with
          | .ok (some props) =>
            let r := resultFromProps props
            some (r, { env with stats := record_api_call false 1 env.stats,
                                cache := dinsert k r env.cache })
          | .ok none =>
            some (openWaterDict,
              { env with stats := record_api_call false 1 env.stats,
                         cache := dinsert k openWaterDict env.cache })
          | .rateLimited =>
            single_reverse_geocode_fixed lat lon has_key rest
              { env with delays := env.delays ++ [1] }
          | .httpError _ =>
            some (geocodingFailedDict,
              { env with stats := record_error false env.stats,
                         cache := dinsert k geocodingFailedDict env.cache })
          | .netTimeout =>
            some (timeoutDict,
              { env with stats := record_error false env.stats,
                         cache := dinsert k timeoutDict env.cache })
          | .netError msg =>
            some (errorDict msg,
              { env with stats := record_error false env.stats,
                         cache := dinsert k (errorDict msg) env.cache })
      else
        some (geocodingFailedDict,
          { env with stats := record_error false env.stats,
                     cache := dinsert (key5 (lat, lon)) geocodingFailedDict env.cache })

/-- The cache-partition loop at the top of `batch_reverse_geocode` (lines
150-163): split the input into already-cached results (5-decimal key first,
then the 4-decimal fallback) and the uncached remainder, in order. -/
def prefetchCache : List Coord → List (Coord × GeoDict) → List Coord → GeoEnv →
    List (Coord × GeoDict) × List Coord × GeoEnv
  | [], results, uncached, env => (results, uncached, env)
  | c :: cs, results, uncached, env =>
    match dlookup (key5 c) env.cache with
    | some v =>
      prefetchCache cs (dinsert c v results) uncached
        { env with stats := record_cache_hit false env.stats }
    | none =>
      match dlookup (key4 c) env.cache with
      | some v =>
        prefetchCache cs (dinsert c v results) uncached
          { env with stats := record_cache_hit false env.stats }
      | none => prefetchCache cs results (uncached ++ [c]) env

/-- Sequentialised processing of one batch: each coordinate runs
`single_reverse_geocode_fixed` on its own response trace and its result is
stored under the raw coordinate (lines 186-201).  The `isinstance(result,
Exception)` arm is unreachable: every exception path inside the single lookup
already returns a placeholder. -/
def processCoords (traces : Coord → List ProviderResponse) (has_key : Bool) :
    List Coord → List (Coord × GeoDict) × GeoEnv →
    Option (List (Coord × GeoDict) × GeoEnv)
  | [], st => some st
  | c :: cs, (results, env) =>
    match single_reverse_geocode_fixed c.1 c.2 has_key (traces c) env with
    | none => none
    | some (r, env') => processCoords traces has_key cs (dinsert c r results, env')

/-- Fuel-driven chunking helper (the fuel is an upper bound on the list
length, making the recursion structural and kernel-computable). -/
def chunksOfFuel {α : Type} (m : ℕ) : ℕ → List α → List (List α)
  | 0, _ => []
  | _ + 1, [] => []
  | fuel + 1, x :: xs => (x :: xs.take m) :: chunksOfFuel m fuel (xs.drop m)

/-- Python slicing `[uncached[i:i+m+1] for i in range(0, len, m+1)]`:
chunks of size `m + 1` (the source size `min(batch_size, 25)` is at least 1
for every caller, so it is modelled as a successor). -/
def chunksOf {α : Type} (m : ℕ) (l : List α) : List (List α) :=
  chunksOfFuel m l.length l

/-- The batch loop of lines 180-219: process the chunks in order (the
inter-batch `asyncio.sleep(0.2)` has no modelled effect). -/
def processChunks (traces : Coord → List ProviderResponse) (has_key : Bool) :
    List (List Coord) → List (Coord × GeoDict) × GeoEnv →
    Option (List (Coord × GeoDict) × GeoEnv)
  | [], st => some st
  | chunk :: rest, st =>
    match processCoords traces has_key chunk st with
    | none => none
    | some st' => processChunks traces has_key rest st'

/-- `batch_reverse_geocode` (geo_utils.py lines 139-224): cache partition,
early return when everything was cached, otherwise batched lookups; the final
`save_geo_cache()` is external persistence and not part of the state. -/
def batch_reverse_geocode (coordinates : List Coord) (has_key : Bool)
    (batch_size : ℕ) (traces : Coord → List ProviderResponse) (env : GeoEnv) :
    Option (List (Coord × GeoDict) × GeoEnv) :=
  let pre := prefetchCache coordinates [] [] env
  if pre.2.1 = [] then some (pre.1, pre.2.2)
  else processChunks traces has_key (chunksOf (min batch_size 25 - 1) pre.2.1)
    (pre.1, pre.2.2)

/-! ## LocationAnalyzer.geocode_points (location_analyzer.py lines 261-337)

Modelled per coordinate group: `self.geocode_cache` is keyed by the formatted
5-decimal coordinate (modelled with `key5`), and the provider interaction for
a group is a single oracle response.  When the HTTP status is not 200, or the
body has no `results`, the source assigns nothing for the group's points; the
`except` arm assigns the "Unknown" fallback (with the dataclass default
`is_water=False`) and records nothing in the statistics. -/

/-- One provider outcome for a `geocode_points` group. -/
inductive GPResponse where
  /-- HTTP 200 whose body has a non-empty `results` list, carrying
  `city`/`state`/`country`/`formatted` of the first entry -/
  | ok (city state country : Option String) (formatted : Option String)
  /-- HTTP 200 with an empty `results` list -/
  | emptyResults
  /-- any non-200 HTTP status -/
  | httpStatus (code : ℕ)
  /-- an exception inside the `try` block -/
  | exc (msg : String)
deriving DecidableEq, Repr

/-- The per-group body of `geocode_coordinate`. -/
def geocodeCoordinate (responses : Coord → GPResponse)
    (st : List (LAPoint × GeocodeResult) × List (Coord × GeocodeResult))
    (group : Coord × List LAPoint) :
    List (LAPoint × GeocodeResult) × List (Coord × GeocodeResult) :=
  let (results, cache) := st
  match dlookup group.1 cache with
  | some cached => (group.2.foldl (fun acc p => dinsert p cached acc) results, cache)
  | none =>
    match responses group.1 with
    | .ok city state country formatted =>
      let r : GeocodeResult := ⟨city, state, country, formatted.getD "", false⟩
      (group.2.foldl (fun acc p => dinsert p r acc) results, dinsert group.1 r cache)
    | .emptyResults => (results, cache)
    | .httpStatus _ => (results, cache)
    | .exc _ =>
      let fallback : GeocodeResult :=
        ⟨some "Unknown", some "Unknown", some "Unknown",
          "Lat: " ++ toString group.1.1 ++ ", Lon: " ++ toString group.1.2, false⟩
      (group.2.foldl (fun acc p => dinsert p fallback acc) results, cache)

/-- `coord_groups`: group points by their rounded coordinate key, keeping
first-seen key order and per-key point order. -/
def groupByCoord (points : List LAPoint) : List (Coord × List LAPoint) :=
  points.foldl (fun groups p =>
    let k := key5 (p.lat, p.lon)
    match dlookup k groups with
    | some members => dinsert k (members ++ [p]) groups
    | none => groups ++ [(k, [p])]) []

/-- `LocationAnalyzer.geocode_points` (results mapping and updated cache). -/
def geocode_points (points : List LAPoint) (cache : List (Coord × GeocodeResult))
    (responses : Coord → GPResponse) :
    List (LAPoint × GeocodeResult) × List (Coord × GeocodeResult) :=
  (groupByCoord points).foldl (geocodeCoordinate responses) ([], cache)

/-! ## Basic association-list and ledger lemmas -/

theorem dlookup_dinsert {α β : Type} [DecidableEq α] (k k' : α) (v : β)
    (m : List (α × β)) :
    dlookup k' (dinsert k v m) = if k = k' then some v else dlookup k' m := by
  induction m with
  | nil => simp [dinsert, dlookup]
  | cons hd tl ih =>
    obtain ⟨a, b⟩ := hd
    by_cases hak : a = k
    · subst hak
      simp [dinsert, dlookup]
      by_cases hk : a = k' <;> simp [hk]
    · simp only [dinsert, if_neg hak, dlookup]
      by_cases hk : a = k'
      · subst hk
        have : ¬ k = a := fun h => hak h.symm
        simp [this]
      · simp [hk, ih]

theorem dlookup_dinsert_self {α β : Type} [DecidableEq α] (k : α) (v : β)
    (m : List (α × β)) : dlookup k (dinsert k v m) = some v := by
  simp [dlookup_dinsert]

theorem bump_apply (f : String → ℚ) (k d k') :
    bump f k d k' = f k' + (if k = k' then d else 0) := by
  unfold bump
  by_cases h : k' = k
  · subst h; simp
  · have h' : ¬ k = k' := fun hh => h hh.symm
    simp [h, h']

theorem adjPairs_cons_cons {α : Type} (a b : α) (l : List α) :
    adjPairs (a :: b :: l) = (a, b) :: adjPairs (b :: l) := rfl

/-! ## C8 — GeocodingStats invariant -/

/-- C8: after any sequence of recording operations starting from a reset
state, the report built by `get_stats` satisfies
`total = cache_hits + api_calls + errors` in both the plain-geocoding and the
water-detection families. -/
theorem geocoding_stats_total_invariant (ops : List StatsOp) :
    ((get_stats (ops.foldl applyStatsOp statsReset)).1.total =
        (get_stats (ops.foldl applyStatsOp statsReset)).1.cache_hits +
          (get_stats (ops.foldl applyStatsOp statsReset)).1.api_calls +
          (get_stats (ops.foldl applyStatsOp statsReset)).1.errors) ∧
      (get_stats (ops.foldl applyStatsOp statsReset)).2.total =
        (get_stats (ops.foldl applyStatsOp statsReset)).2.cache_hits +
          (get_stats (ops.foldl applyStatsOp statsReset)).2.api_calls +
          (get_stats (ops.foldl applyStatsOp statsReset)).2.errors :=
  ⟨rfl, rfl⟩

/-! ## C9 — haversine symmetry and self-distance -/

/-- C9: `haversine_distance` is symmetric in its two coordinates, and the
distance from a coordinate to itself is zero. -/
theorem haversine_symm_and_self_zero :
    (∀ lat1 lon1 lat2 lon2 : ℝ,
        haversine_distance lat1 lon1 lat2 lon2 = haversine_distance lat2 lon2 lat1 lon1) ∧
      ∀ lat lon : ℝ, haversine_distance lat lon lat lon = 0 := by
  constructor
  · intro lat1 lon1 lat2 lon2
    simp only [haversine_distance, radians]
    have h1 : Real.sin ((lat1 - lat2) * Real.pi / 180 / 2) ^ 2
        = Real.sin ((lat2 - lat1) * Real.pi / 180 / 2) ^ 2 := by
      rw [show (lat1 - lat2) * Real.pi / 180 / 2 = -((lat2 - lat1) * Real.pi / 180 / 2) by ring,
        Real.sin_neg, neg_sq]
    have h2 : Real.sin ((lon1 - lon2) * Real.pi / 180 / 2) ^ 2
        = Real.sin ((lon2 - lon1) * Real.pi / 180 / 2) ^ 2 := by
      rw [show (lon1 - lon2) * Real.pi / 180 / 2 = -((lon2 - lon1) * Real.pi / 180 / 2) by ring,
        Real.sin_neg, neg_sq]
    rw [h1, h2, mul_comm (Real.cos (lat2 * Real.pi / 180)) (Real.cos (lat1 * Real.pi / 180))]
  · intro lat lon
    simp only [haversine_distance, radians, sub_self, zero_mul, zero_div, Real.sin_zero]
    norm_num [atan2, Real.arctan_zero]

/-! ## C10 — sample_points bounds -/

theorem sampleMiddle_length_le {α : Type} (points : List α) (mp : ℕ) :
    (sampleMiddle points mp).length ≤ mp - 2 := by
  calc (sampleMiddle points mp).length ≤ (List.range (mp - 2)).length :=
        List.length_filterMap_le _ _
    _ = mp - 2 := List.length_range _

/-- C10: `sample_points` returns short inputs unchanged; when the input is
longer than `max_points ≥ 2`, the output starts with the first input element,
ends with the last one, and has at most `max_points` elements. -/
theorem sample_points_spec {α : Type} (points : List α) (max_points : ℕ) :
    (points.length ≤ max_points → sample_points points max_points = points) ∧
      (2 ≤ max_points → max_points < points.length →
        (sample_points points max_points).head? = points.head? ∧
          (sample_points points max_points).getLast? = points.getLast? ∧
          (sample_points points max_points).length ≤ max_points) := by
  constructor
  · intro h
    simp [sample_points, h]
  · intro h2 hlt
    have hnle : ¬ points.length ≤ max_points := by omega
    have hn2 : ¬ max_points < 2 := by omega
    have hpos : 0 < points.length := by omega
    obtain ⟨p, ps, rfl⟩ : ∃ p ps, points = p :: ps := by
      cases points with
      | nil => simp at hpos
      | cons p ps => exact ⟨p, ps, rfl⟩
    have h1lt : 1 < (p :: ps).length := by
      simp only [List.length_cons] at hlt ⊢; omega
    have hx : ¬ ps.length + 1 ≤ max_points := by
      simp only [List.length_cons] at hlt; omega
    have hps : 0 < ps.length := by
      simp only [List.length_cons] at hlt; omega
    have hform : sample_points (p :: ps) max_points =
        (p :: sampleMiddle (p :: ps) max_points) ++ ((p :: ps).getLast?).toList := by
      simp [sample_points, hnle, hn2, h1lt, List.take_cons, hx, hps]
    refine ⟨?_, ?_, ?_⟩
    · rw [hform]; rfl
    · rw [hform]
      have : ((p :: ps).getLast?).toList = [(p :: ps).getLast (by simp)] := by
        rw [List.getLast?_eq_getLast _ (by simp)]; rfl
      rw [this, List.getLast?_concat, List.getLast?_eq_getLast _ (by simp)]
    · rw [hform]
      have hmid := sampleMiddle_length_le (p :: ps) max_points
      have : ((p :: ps).getLast?).toList.length ≤ 1 := by
        cases h : (p :: ps).getLast? <;> simp [Option.toList]
      simp only [List.length_append, List.length_cons]
      omega

/-- Witness for C10 at `points = [0,…,5]`, `max_points = 3`. -/
theorem sample_points_spec_witness :
    2 ≤ 3 ∧ 3 < List.length [0, 1, 2, 3, 4, 5] ∧
      ((sample_points [0, 1, 2, 3, 4, 5] 3).head? = ([0, 1, 2, 3, 4, 5] : List ℕ).head? ∧
        (sample_points [0, 1, 2, 3, 4, 5] 3).getLast? = ([0, 1, 2, 3, 4, 5] : List ℕ).getLast? ∧
        (sample_points [0, 1, 2, 3, 4, 5] 3).length ≤ 3) :=
  ⟨by decide, by decide,
    (sample_points_spec [0, 1, 2, 3, 4, 5] 3).2 (by decide) (by decide)⟩

/-! ## C4 — significance filter -/

theorem filterLoop_sublist (cfg : AnalysisConfig) :
    ∀ (ps : List LAPoint) (last : LAPoint), (filterLoop cfg last ps).Sublist ps := by
  intro ps
  induction ps with
  | nil => intro last; simp [filterLoop]
  | cons p ps ih =>
    intro last
    by_cases h : significant cfg last p
    · simp only [filterLoop, if_pos h]
      exact List.Sublist.cons₂ p (ih p)
    · simp only [filterLoop, if_neg h]
      exact List.Sublist.cons p (ih last)

/-- C4: `filter_significant_points` always keeps the first point, its output
is a subsequence of its input, and a later point is kept exactly when its
haversine distance from the last kept point strictly exceeds the distance
threshold or the elapsed time strictly exceeds the time threshold (the
`significant` condition), after which the kept point becomes the new
reference.  The same loop with thresholds 0.5 mi / 0.5 h is inlined in
`run_modern_analysis`. -/
theorem filter_significant_points_spec :
    (∀ (cfg : AnalysisConfig) (p : LAPoint) (ps : List LAPoint),
        (filter_significant_points cfg (p :: ps)).head? = some p) ∧
      (∀ (cfg : AnalysisConfig) (points : List LAPoint),
        (filter_significant_points cfg points).Sublist points) ∧
      ∀ (cfg : AnalysisConfig) (last p : LAPoint) (ps : List LAPoint),
        filterLoop cfg last (p :: ps) =
          if significant cfg last p then p :: filterLoop cfg p ps
          else filterLoop cfg last ps := by
  refine ⟨fun cfg p ps => rfl, ?_, fun cfg last p ps => rfl⟩
  intro cfg points
  cases points with
  | nil => simp [filter_significant_points]
  | cons p ps => exact List.Sublist.cons₂ p (filterLoop_sublist cfg ps p)

/-! ## C3 — time attribution in the aggregators -/

/-- The subsequence of points that have a geocode entry, paired with their
results (the `if point not in geocode_results: continue` filter). -/
def geocodedStream (geocode : LAPoint → Option GeocodeResult) (points : List LAPoint) :
    List (LAPoint × GeocodeResult) :=
  points.filterMap fun p => (geocode p).map fun r => (p, r)

theorem grLoop_city_sum (geocode : LAPoint → Option GeocodeResult) :
    ∀ (ps : List LAPoint) (lastOpt : Option (LAPoint × GeocodeResult))
      (ct st : String → ℚ) (key : String),
      (grLoop geocode ps lastOpt ct st).1 key =
        ct key + ((adjPairs (lastOpt.toList ++ geocodedStream geocode ps)).map fun q =>
          if cityKeyOf q.1.2 = key then (q.2.1.ts - q.1.1.ts) / 86400 else 0).sum := by
  intro ps
  induction ps with
  | nil =>
    intro lastOpt ct st key
    cases lastOpt with
    | none => simp [grLoop, geocodedStream, adjPairs]
    | some lr => simp [grLoop, geocodedStream, adjPairs]
  | cons p ps ih =>
    intro lastOpt ct st key
    cases hg : geocode p with
    | none =>
      simp only [grLoop, hg]
      rw [ih]
      congr 2
      simp [geocodedStream, List.filterMap_cons, hg]
    | some r =>
      cases lastOpt with
      | none =>
        simp only [grLoop, hg]
        rw [ih]
        simp [geocodedStream, List.filterMap_cons, hg]
      | some lr =>
        obtain ⟨lp, lres⟩ := lr
        simp only [grLoop, hg]
        rw [ih, bump_apply]
        simp only [Option.toList_some, List.singleton_append, geocodedStream,
          List.filterMap_cons, hg, Option.map_some', adjPairs_cons_cons, List.map_cons,
          List.sum_cons]
        have : geocodedStream geocode ps = ps.filterMap fun q =>
            (geocode q).map fun r' => (q, r') := rfl
        rw [← this]
        ring_nf
        by_cases hk : cityKeyOf lres = key <;> simp [hk] <;> ring

theorem legacyLoop_sum (geocode : ℚ × ℚ → GeoDict) (by_city : Bool) :
    ∀ (ps : List LegacyPoint) (p0 : LegacyPoint) (ct : String → ℚ) (key : String),
      legacyLoop geocode by_city ps (some p0.ts) ct key =
        ct key + ((adjPairs (p0 :: ps)).map fun q =>
          if legacyPlace by_city (geocode (q.2.lat, q.2.lon)) = key then
            (q.2.ts - q.1.ts) / 86400 else 0).sum := by
  intro ps
  induction ps with
  | nil => intro p0 ct key; simp [legacyLoop, adjPairs]
  | cons p ps ih =>
    intro p0 ct key
    simp only [legacyLoop]
    rw [ih p, bump_apply, adjPairs_cons_cons]
    simp only [List.map_cons, List.sum_cons]
    by_cases hk : legacyPlace by_city (geocode (p.lat, p.lon)) = key
    · simp only [hk, if_pos rfl]; ring
    · simp only [if_neg hk]; ring

/-- C3 (amended): `generate_time_reports` attributes every gap between
consecutive geocoded points to the EARLIER point's city key, even when the
place is unchanged (first conjunct: the ledger is exactly the sum of gaps
whose earlier endpoint resolves to the key); the legacy
`process_location_file` ledger instead attributes every gap to the LATER
point's place (second conjunct). -/
theorem time_ledger_attribution :
    (∀ (geocode : LAPoint → Option GeocodeResult) (points : List LAPoint) (key : String),
        (generate_time_reports geocode points).1 key =
          ((adjPairs (geocodedStream geocode points)).map fun q =>
            if cityKeyOf q.1.2 = key then (q.2.1.ts - q.1.1.ts) / 86400 else 0).sum) ∧
      ∀ (geocode : ℚ × ℚ → GeoDict) (by_city : Bool) (coords : List LegacyPoint)
        (key : String),
        legacy_city_time geocode by_city coords key =
          ((adjPairs coords).map fun q =>
            if legacyPlace by_city (geocode (q.2.lat, q.2.lon)) = key then
              (q.2.ts - q.1.ts) / 86400 else 0).sum := by
  constructor
  · intro geocode points key
    have h := grLoop_city_sum geocode points none (fun _ => 0) (fun _ => 0) key
    simpa [generate_time_reports] using h
  · intro geocode by_city coords key
    cases coords with
    | nil => simp [legacy_city_time, legacyLoop, adjPairs]
    | cons p ps =>
      have h := legacyLoop_sum geocode by_city ps p (fun _ => 0) key
      simpa [legacy_city_time, legacyLoop] using h

/-- Counterexample for C3 as stated: two legacy points one day apart, the
first resolving to city "A", the second to city "B"; the legacy ledger
credits the whole day to "B" (the later point's place) and nothing to "A"
(the earlier point's place). -/
theorem legacy_time_to_later_place :
    legacy_city_time
        (fun c => if c = ((0 : ℚ), (0 : ℚ)) then ⟨some "A", none, some "X", "", false⟩
          else ⟨some "B", none, some "X", "", false⟩)
        true [⟨0, 0, 0⟩, ⟨86400, 10, 10⟩] "A" = 0 ∧
      legacy_city_time
        (fun c => if c = ((0 : ℚ), (0 : ℚ)) then ⟨some "A", none, some "X", "", false⟩
          else ⟨some "B", none, some "X", "", false⟩)
        true [⟨0, 0, 0⟩, ⟨86400, 10, 10⟩] "B" = 1 := by
  constructor
  · norm_num [legacy_city_time, legacyLoop, legacyPlace, bump]
    decide
  · norm_num [legacy_city_time, legacyLoop, legacyPlace, bump]
    decide

/-! ## C5 — international-jump override -/

/-- C5 (amended): for the Paris→Tokyo jump (6000 miles, 14 hours, places
"Paris, France" → city in country "Japan"), the international-jump override
yields mode "Flight" when the raw activity label maps to a non-trusted mode
and equals "in passenger vehicle" or "unknown"; trusted raw labels are kept
instead of being overridden. -/
theorem city_jump_mode_international :
    city_jump_mode "in passenger vehicle" "Paris, France" "Japan" "" 6000 14 none []
        = "Flight" ∧
      city_jump_mode "unknown" "Paris, France" "Japan" "" 6000 14 none [] = "Flight" := by
  constructor
  · decide
  · decide

/-- Counterexample for C5 as stated: on the same Paris→Tokyo jump the raw
label "in train" maps to the trusted mode "Train", which is kept — the
result is not "Flight", so the override does not apply regardless of the raw
activity label. -/
theorem city_jump_mode_not_label_independent :
    city_jump_mode "in train" "Paris, France" "Japan" "" 6000 14 none [] = "Train" ∧
      "Train" ≠ "Flight" := by
  constructor
  · decide
  · decide

/-! ## C6 — geo-string parsing and the range check -/

/-- C6 (amended): a geo string parses in `LocationProcessor.parse_coordinates`
exactly when it splits into exactly two float components that lie within
|lat| ≤ 90, |lon| ≤ 180 (anything else yields `none`, i.e. a silent drop);
the analyzer parsers (`parse_location_data`, `run_modern_analysis`) accept
exactly two float components with NO range check. -/
theorem parse_coordinates_geo_iff :
    (∀ (parts : List (Option ℚ)) (lat lon : ℚ),
        parse_coordinates (.geoStr parts) = some (lat, lon) ↔
          parts = [some lat, some lon] ∧
            -90 ≤ lat ∧ lat ≤ 90 ∧ -180 ≤ lon ∧ lon ≤ 180) ∧
      ∀ (parts : List (Option ℚ)) (lat lon : ℚ),
        la_parse_geo parts = some (lat, lon) ↔ parts = [some lat, some lon] := by
  constructor
  · intro parts lat lon
    match parts with
    | [] => simp [parse_coordinates]
    | [none] => simp [parse_coordinates]
    | [some a] => simp [parse_coordinates]
    | none :: b :: rest => simp [parse_coordinates]
    | [some a, none] => simp [parse_coordinates]
    | some a :: b :: c :: rest => simp [parse_coordinates]
    | [some a, some b] =>
      constructor
      · intro h
        simp only [parse_coordinates] at h
        split at h
        · rename_i hcond
          obtain ⟨rfl, rfl⟩ : a = lat ∧ b = lon := by simpa using h
          exact ⟨rfl, hcond⟩
        · simp at h
      · rintro ⟨hp, hr⟩
        obtain ⟨rfl, rfl⟩ : a = lat ∧ b = lon := by simpa using hp
        simp [parse_coordinates, hr]
  · intro parts lat lon
    match parts with
    | [] => simp [la_parse_geo]
    | [none] => simp [la_parse_geo]
    | [some a] => simp [la_parse_geo]
    | none :: b :: rest => simp [la_parse_geo]
    | [some a, none] => simp [la_parse_geo]
    | some a :: b :: c :: rest => simp [la_parse_geo]
    | [some a, some b] => simp [la_parse_geo]

/-- Counterexample for C6 as stated: the geo string `geo:999,0` has latitude
999 (out of range), yet `parse_location_data`'s activity branch emits the
point, while `parse_coordinates` drops it. -/
theorem la_activity_emits_out_of_range :
    la_activity_start_point true [some 999, some 0] 0 = some ⟨0, 999, 0⟩ ∧
      ¬ ((999 : ℚ) ≤ 90) ∧
      parse_coordinates (.geoStr [some 999, some 0]) = none := by
  refine ⟨rfl, by decide, by decide⟩

/-! ## C1 — 429 backoff-and-retry -/

/-- C1: on a cache miss, a provider interaction of "429, then success"
makes `single_reverse_geocode_fixed` return the successful result built from
the provider's properties, record exactly one retry backoff in `delays`, and
leave the error counter untouched (one API call is recorded instead). -/
theorem retry_once_on_429 (lat lon : ℚ) (env : GeoEnv) (props : GeoProps)
    (hmiss : dlookup (key5 (lat, lon)) env.cache = none) :
    single_reverse_geocode_fixed lat lon true
        [ProviderResponse.rateLimited, ProviderResponse.ok (some props)] env =
      some (resultFromProps props,
        { cache := dinsert (key5 (lat, lon)) (resultFromProps props) env.cache,
          stats := record_api_call false 1 env.stats,
          delays := env.delays ++ [1] }) ∧
      (record_api_call false 1 env.stats).errors = env.stats.errors := by
  constructor
  · simp [single_reverse_geocode_fixed, hmiss]
  · simp [record_api_call]

/-- Witness for C1 at coordinate (1, 2) with an empty cache. -/
theorem retry_once_on_429_witness :
    dlookup (key5 ((1 : ℚ), (2 : ℚ))) ([] : List (Coord × GeoDict)) = none ∧
      (single_reverse_geocode_fixed 1 2 true
          [ProviderResponse.rateLimited,
            ProviderResponse.ok (some ⟨none, none, none, none, none, none, none⟩)]
          ⟨[], statsReset, []⟩ =
        some (resultFromProps ⟨none, none, none, none, none, none, none⟩,
          { cache := dinsert (key5 (1, 2))
              (resultFromProps ⟨none, none, none, none, none, none, none⟩) [],
            stats := record_api_call false 1 statsReset,
            delays := [] ++ [1] }) ∧
        (record_api_call false 1 statsReset).errors = statsReset.errors) :=
  ⟨rfl, retry_once_on_429 1 2 ⟨[], statsReset, []⟩
    ⟨none, none, none, none, none, none, none⟩ rfl⟩

/-! ## Lemmas about the single lookup and the batch loop -/

/-- Insertion under a previously-unbound key preserves every existing
binding. -/
theorem dinsert_preserve {α β : Type} [DecidableEq α] (k0 : α) (r : β)
    (m : List (α × β)) (hm : dlookup k0 m = none) :
    ∀ k v, dlookup k m = some v → dlookup k (dinsert k0 r m) = some v := by
  intro k v hkv
  rw [dlookup_dinsert]
  split
  · rename_i hkk; rw [← hkk, hm] at hkv; cases hkv
  · exact hkv

/-- A single lookup terminates whenever its trace contains a non-429
response (it may also terminate earlier through the cache). -/
theorem single_isSome (lat lon : ℚ) :
    ∀ (trace : List ProviderResponse) (env : GeoEnv),
      (∃ resp ∈ trace, resp.isRateLimited = false) →
      (single_reverse_geocode_fixed lat lon true trace env).isSome := by
  intro trace
  induction trace with
  | nil => intro env h; simp at h
  | cons resp rest ih =>
    intro env h
    cases resp with
    | ok props =>
      cases props <;>
        · rw [single_reverse_geocode_fixed]
          cases hl : dlookup (key5 (lat, lon)) env.cache <;> simp
    | rateLimited =>
      rw [single_reverse_geocode_fixed]
      cases hl : dlookup (key5 (lat, lon)) env.cache with
      | some r => simp
      | none =>
        simp only [if_true]
        apply ih
        rcases h with ⟨w, hw, hwf⟩
        rcases List.mem_cons.mp hw with rfl | hmem
        · simp [ProviderResponse.isRateLimited] at hwf
        · exact ⟨w, hmem, hwf⟩
    | httpError code =>
      rw [single_reverse_geocode_fixed]
      cases hl : dlookup (key5 (lat, lon)) env.cache <;> simp
    | netTimeout =>
      rw [single_reverse_geocode_fixed]
      cases hl : dlookup (key5 (lat, lon)) env.cache <;> simp
    | netError msg =>
      rw [single_reverse_geocode_fixed]
      cases hl : dlookup (key5 (lat, lon)) env.cache <;> simp

/-- A returning single lookup leaves its own result under its 5-decimal key
and never removes or overwrites an existing cache binding. -/
theorem single_cache_facts (lat lon : ℚ) (hk : Bool) :
    ∀ (trace : List ProviderResponse) (env : GeoEnv) (r : GeoDict) (env' : GeoEnv),
      single_reverse_geocode_fixed lat lon hk trace env = some (r, env') →
      dlookup (key5 (lat, lon)) env'.cache = some r ∧
        ∀ k v, dlookup k env.cache = some v → dlookup k env'.cache = some v := by
  intro trace
  induction trace with
  | nil =>
    intro env r env' h
    rw [single_reverse_geocode_fixed] at h
    cases hl : dlookup (key5 (lat, lon)) env.cache with
    | some v =>
      rw [hl] at h
      simp only [Option.some.injEq, Prod.mk.injEq] at h
      obtain ⟨rfl, rfl⟩ := h
      exact ⟨hl, fun k v hkv => hkv⟩
    | none =>
      rw [hl] at h
      cases hk with
      | true => simp at h
      | false =>
        simp only [Bool.false_eq_true, if_false, Option.some.injEq, Prod.mk.injEq] at h
        obtain ⟨rfl, rfl⟩ := h
        exact ⟨by simp [dlookup_dinsert_self], dinsert_preserve _ _ _ hl⟩
  | cons resp rest ih =>
    intro env r env' h
    cases resp with
    | rateLimited =>
      rw [single_reverse_geocode_fixed] at h
      cases hl : dlookup (key5 (lat, lon)) env.cache with
      | some v =>
        rw [hl] at h
        simp only [Option.some.injEq, Prod.mk.injEq] at h
        obtain ⟨rfl, rfl⟩ := h
        exact ⟨hl, fun k v hkv => hkv⟩
      | none =>
        rw [hl] at h
        cases hk with
        | true =>
          simp only [if_true] at h
          have hres := ih (GeoEnv.mk env.cache env.stats (env.delays ++ [1])) r env' h
          exact ⟨hres.1, fun k v hkv => hres.2 k v hkv⟩
        | false =>
          simp only [Bool.false_eq_true, if_false, Option.some.injEq, Prod.mk.injEq] at h
          obtain ⟨rfl, rfl⟩ := h
          exact ⟨by simp [dlookup_dinsert_self], dinsert_preserve _ _ _ hl⟩
    | ok props =>
      cases props <;>
        · rw [single_reverse_geocode_fixed] at h
          cases hl : dlookup (key5 (lat, lon)) env.cache with
          | some v =>
            rw [hl] at h
            simp only [Option.some.injEq, Prod.mk.injEq] at h
            obtain ⟨rfl, rfl⟩ := h
            exact ⟨hl, fun k v hkv => hkv⟩
          | none =>
            rw [hl] at h
            cases hk <;> simp only [Bool.false_eq_true, if_false, if_true,
              Option.some.injEq, Prod.mk.injEq] at h <;>
              · obtain ⟨rfl, rfl⟩ := h
                exact ⟨by simp [dlookup_dinsert_self], dinsert_preserve _ _ _ hl⟩
    | httpError code =>
      rw [single_reverse_geocode_fixed] at h
      cases hl : dlookup (key5 (lat, lon)) env.cache with
      | some v =>
        rw [hl] at h
        simp only [Option.some.injEq, Prod.mk.injEq] at h
        obtain ⟨rfl, rfl⟩ := h
        exact ⟨hl, fun k v hkv => hkv⟩
      | none =>
        rw [hl] at h
        cases hk <;> simp only [Bool.false_eq_true, if_false, if_true,
          Option.some.injEq, Prod.mk.injEq] at h <;>
          · obtain ⟨rfl, rfl⟩ := h
            exact ⟨by simp [dlookup_dinsert_self], dinsert_preserve _ _ _ hl⟩
    | netTimeout =>
      rw [single_reverse_geocode_fixed] at h
      cases hl : dlookup (key5 (lat, lon)) env.cache with
      | some v =>
        rw [hl] at h
        simp only [Option.some.injEq, Prod.mk.injEq] at h
        obtain ⟨rfl, rfl⟩ := h
        exact ⟨hl, fun k v hkv => hkv⟩
      | none =>
        rw [hl] at h
        cases hk <;> simp only [Bool.false_eq_true, if_false, if_true,
          Option.some.injEq, Prod.mk.injEq] at h <;>
          · obtain ⟨rfl, rfl⟩ := h
            exact ⟨by simp [dlookup_dinsert_self], dinsert_preserve _ _ _ hl⟩
    | netError msg =>
      rw [single_reverse_geocode_fixed] at h
      cases hl : dlookup (key5 (lat, lon)) env.cache with
      | some v =>
        rw [hl] at h
        simp only [Option.some.injEq, Prod.mk.injEq] at h
        obtain ⟨rfl, rfl⟩ := h
        exact ⟨hl, fun k v hkv => hkv⟩
      | none =>
        rw [hl] at h
        cases hk <;> simp only [Bool.false_eq_true, if_false, if_true,
          Option.some.injEq, Prod.mk.injEq] at h <;>
          · obtain ⟨rfl, rfl⟩ := h
            exact ⟨by simp [dlookup_dinsert_self], dinsert_preserve _ _ _ hl⟩

/-- The batch loop returns a result when every queued coordinate's trace
contains a non-429 response. -/
theorem processCoords_isSome (traces : Coord → List ProviderResponse) :
    ∀ (l : List Coord) (res : List (Coord × GeoDict)) (env : GeoEnv),
      (∀ c ∈ l, ∃ resp ∈ traces c, resp.isRateLimited = false) →
      (processCoords traces true l (res, env)).isSome := by
  intro l
  induction l with
  | nil => intro res env h; simp [processCoords]
  | cons c cs ih =>
    intro res env h
    have hc := h c (List.mem_cons_self c cs)
    cases hs : single_reverse_geocode_fixed c.1 c.2 true (traces c) env with
    | none =>
      have := single_isSome c.1 c.2 (traces c) env hc
      rw [hs] at this
      simp at this
    | some pr =>
      obtain ⟨r, env₁⟩ := pr
      rw [processCoords, hs]
      exact ih (dinsert c r res) env₁ fun c0 hc0 => h c0 (List.mem_cons_of_mem c hc0)

/-- Result/cache bookkeeping of the batch loop: earlier results survive,
every processed coordinate gains a result, the cache only grows, and the
"every recorded result is cached under its 5-decimal key" invariant is
preserved. -/
theorem processCoords_facts (traces : Coord → List ProviderResponse) :
    ∀ (l : List Coord) (res : List (Coord × GeoDict)) (env : GeoEnv)
      (res' : List (Coord × GeoDict)) (env' : GeoEnv),
      processCoords traces true l (res, env) = some (res', env') →
      ((∀ c, (dlookup c res).isSome → (dlookup c res').isSome) ∧
          ∀ c, c ∈ l → (dlookup c res').isSome) ∧
        (∀ k v, dlookup k env.cache = some v → dlookup k env'.cache = some v) ∧
        ((∀ c r, dlookup c res = some r → dlookup (key5 c) env.cache = some r) →
          ∀ c r, dlookup c res' = some r → dlookup (key5 c) env'.cache = some r) := by
  intro l
  induction l with
  | nil =>
    intro res env res' env' h
    simp only [processCoords, Option.some.injEq, Prod.mk.injEq] at h
    obtain ⟨rfl, rfl⟩ := h
    exact ⟨⟨fun c hc => hc, by simp⟩, fun k v hv => hv, fun hinv => hinv⟩
  | cons c cs ih =>
    intro res env res' env' h
    cases hs : single_reverse_geocode_fixed c.1 c.2 true (traces c) env with
    | none => rw [processCoords, hs] at h; cases h
    | some pr =>
      obtain ⟨r, env₁⟩ := pr
      rw [processCoords, hs] at h
      have hfacts := ih (dinsert c r res) env₁ res' env' h
      have hsingle := single_cache_facts c.1 c.2 true (traces c) env r env₁ hs
      refine ⟨⟨?_, ?_⟩, ?_, ?_⟩
      · intro c0 hc0
        apply hfacts.1.1
        rw [dlookup_dinsert]
        split
        · simp
        · exact hc0
      · intro c0 hc0
        rcases List.mem_cons.mp hc0 with rfl | hmem
        · exact hfacts.1.1 c0 (by simp [dlookup_dinsert_self])
        · exact hfacts.1.2 c0 hmem
      · intro k v hv
        exact hfacts.2.1 k v (hsingle.2 k v hv)
      · intro hinv
        apply hfacts.2.2
        intro c0 r0 hc0
        rw [dlookup_dinsert] at hc0
        by_cases hcc : c = c0
        · subst hcc
          simp only [if_pos rfl, if_true, Option.some.injEq] at hc0
          rw [← hc0]
          exact hsingle.1
        · rw [if_neg hcc] at hc0
          exact hsingle.2 _ _ (hinv c0 r0 hc0)

theorem processCoords_append (traces : Coord → List ProviderResponse) (hk : Bool) :
    ∀ (l₁ l₂ : List Coord) (st : List (Coord × GeoDict) × GeoEnv),
      processCoords traces hk (l₁ ++ l₂) st =
        (processCoords traces hk l₁ st).bind (processCoords traces hk l₂) := by
  intro l₁
  induction l₁ with
  | nil =>
    intro l₂ st
    obtain ⟨res, env⟩ := st
    simp [processCoords]
  | cons c cs ih =>
    intro l₂ st
    obtain ⟨res, env⟩ := st
    simp only [List.cons_append]
    rw [processCoords, processCoords]
    cases hs : single_reverse_geocode_fixed c.1 c.2 hk (traces c) env with
    | none => simp
    | some pr =>
      obtain ⟨r, env₁⟩ := pr
      exact ih l₂ (dinsert c r res, env₁)

theorem processChunks_cons (traces : Coord → List ProviderResponse) (hk : Bool)
    (chunk : List Coord) (rest : List (List Coord))
    (st : List (Coord × GeoDict) × GeoEnv) :
    processChunks traces hk (chunk :: rest) st =
      (processCoords traces hk chunk st).bind (processChunks traces hk rest) := by
  rw [processChunks]
  cases processCoords traces hk chunk st <;> rfl

theorem chunksOfFuel_eq {α : Type} (m : ℕ) :
    ∀ (f : ℕ) (l : List α), l.length ≤ f →
      chunksOfFuel m f l = chunksOfFuel m l.length l := by
  intro f
  induction f using Nat.strong_induction_on with
  | _ f ih =>
    intro l hl
    cases f with
    | zero =>
      cases l with
      | nil => rfl
      | cons x xs => simp at hl
    | succ f =>
      cases l with
      | nil => rfl
      | cons x xs =>
        simp only [List.length_cons, chunksOfFuel]
        congr 1
        have hxs : xs.length ≤ f := by
          simpa using hl
        have h1 : (xs.drop m).length ≤ f := by
          simp only [List.length_drop]; omega
        have h2 : (xs.drop m).length ≤ xs.length := by
          simp only [List.length_drop]; omega
        rw [ih f (by omega) _ h1, ih xs.length (by omega) _ h2]

theorem chunksOf_cons {α : Type} (m : ℕ) (x : α) (xs : List α) :
    chunksOf m (x :: xs) = (x :: xs.take m) :: chunksOf m (xs.drop m) := by
  show chunksOfFuel m (x :: xs).length (x :: xs) = _
  simp only [List.length_cons, chunksOfFuel]
  congr 1
  exact chunksOfFuel_eq m xs.length _ (by simp only [List.length_drop]; omega)

/-- Chunked processing is plain sequential processing of the whole queue. -/
theorem processChunks_chunksOf (traces : Coord → List ProviderResponse) (hk : Bool)
    (m : ℕ) :
    ∀ (n : ℕ) (l : List Coord), l.length ≤ n →
      ∀ st, processChunks traces hk (chunksOf m l) st = processCoords traces hk l st := by
  intro n
  induction n using Nat.strong_induction_on with
  | _ n ih =>
    intro l hl st
    cases l with
    | nil =>
      obtain ⟨res, env⟩ := st
      simp [chunksOf, chunksOfFuel, processChunks, processCoords]
    | cons x xs =>
      rw [chunksOf_cons, processChunks_cons]
      have hsplit : x :: xs = (x :: xs.take m) ++ xs.drop m := by
        simp [List.take_append_drop]
      rw [hsplit, processCoords_append]
      cases hp : processCoords traces hk (x :: xs.take m) st with
      | none => rfl
      | some st₁ =>
        cases n with
        | zero => simp at hl
        | succ n =>
          rw [Option.some_bind, Option.some_bind]
          exact ih n (by omega) (xs.drop m)
            (by simp only [List.length_drop]; simp at hl; omega) st₁

/-- Every processed coordinate ends up cached under its 5-decimal key. -/
theorem processCoords_key5 (traces : Coord → List ProviderResponse) :
    ∀ (l : List Coord) (res : List (Coord × GeoDict)) (env : GeoEnv)
      (res' : List (Coord × GeoDict)) (env' : GeoEnv),
      processCoords traces true l (res, env) = some (res', env') →
      ∀ c ∈ l, (dlookup (key5 c) env'.cache).isSome := by
  intro l
  induction l with
  | nil => intro res env res' env' h c hc; simp at hc
  | cons c0 cs ih =>
    intro res env res' env' h c hc
    cases hs : single_reverse_geocode_fixed c0.1 c0.2 true (traces c0) env with
    | none => rw [processCoords, hs] at h; cases h
    | some pr =>
      obtain ⟨r, env₁⟩ := pr
      rw [processCoords, hs] at h
      rcases List.mem_cons.mp hc with rfl | hmem
      · have hsingle := single_cache_facts c.1 c.2 true (traces c) env r env₁ hs
        have hmono := (processCoords_facts traces cs (dinsert c r res) env₁ res' env' h).2.1
        have := hmono _ _ hsingle.1
        simp [this]
      · exact ih (dinsert c0 r res) env₁ res' env' h c hmem

/-- The cache-partition loop never touches the cache, the API/error counters
or the delay list; a coordinate either reaches the uncached queue or has a
5-or-4-decimal cache hit; queued coordinates stay queued. -/
theorem prefetchCache_facts :
    ∀ (cs : List Coord) (res : List (Coord × GeoDict)) (unc : List Coord) (env : GeoEnv),
      (prefetchCache cs res unc env).2.2.cache = env.cache ∧
        (prefetchCache cs res unc env).2.2.stats.api_calls = env.stats.api_calls ∧
        (prefetchCache cs res unc env).2.2.stats.errors = env.stats.errors ∧
        (prefetchCache cs res unc env).2.2.delays = env.delays ∧
        (∀ c ∈ cs, c ∈ (prefetchCache cs res unc env).2.1 ∨
          (dlookup (key5 c) env.cache).isSome ∨ (dlookup (key4 c) env.cache).isSome) ∧
        ∀ c ∈ unc, c ∈ (prefetchCache cs res unc env).2.1 := by
  intro cs
  induction cs with
  | nil =>
    intro res unc env
    simp [prefetchCache]
  | cons c0 cs ih =>
    intro res unc env
    cases h5 : dlookup (key5 c0) env.cache with
    | some v =>
      have hrec := ih (dinsert c0 v res) unc
        { env with stats := record_cache_hit false env.stats }
      simp only [prefetchCache, h5] at hrec ⊢
      refine ⟨hrec.1, ?_, ?_, ?_, ?_, ?_⟩
      · rw [hrec.2.1]; simp [record_cache_hit]
      · rw [hrec.2.2.1]; simp [record_cache_hit]
      · exact hrec.2.2.2.1
      · intro c hc
        rcases List.mem_cons.mp hc with rfl | hmem
        · right; left; simp [h5]
        · exact hrec.2.2.2.2.1 c hmem
      · exact hrec.2.2.2.2.2
    | none =>
      cases h4 : dlookup (key4 c0) env.cache with
      | some v =>
        have hrec := ih (dinsert c0 v res) unc
          { env with stats := record_cache_hit false env.stats }
        simp only [prefetchCache, h5, h4] at hrec ⊢
        refine ⟨hrec.1, ?_, ?_, ?_, ?_, ?_⟩
        · rw [hrec.2.1]; simp [record_cache_hit]
        · rw [hrec.2.2.1]; simp [record_cache_hit]
        · exact hrec.2.2.2.1
        · intro c hc
          rcases List.mem_cons.mp hc with rfl | hmem
          · right; right; simp [h4]
          · exact hrec.2.2.2.2.1 c hmem
        · exact hrec.2.2.2.2.2
      | none =>
        have hrec := ih res (unc ++ [c0]) env
        simp only [prefetchCache, h5, h4] at hrec ⊢
        refine ⟨hrec.1, hrec.2.1, hrec.2.2.1, hrec.2.2.2.1, ?_, ?_⟩
        · intro c hc
          rcases List.mem_cons.mp hc with rfl | hmem
          · exact Or.inl (hrec.2.2.2.2.2 c (by simp))
          · exact hrec.2.2.2.2.1 c hmem
        · intro c hc
          exact hrec.2.2.2.2.2 c (by simp [hc])

/-- When every coordinate has a 5-or-4-decimal cache hit, the partition loop
adds no coordinate to the uncached queue and produces a result for each. -/
theorem prefetchCache_allhit :
    ∀ (cs : List Coord) (res : List (Coord × GeoDict)) (unc : List Coord) (env : GeoEnv),
      (∀ c ∈ cs, (dlookup (key5 c) env.cache).isSome ∨
        (dlookup (key4 c) env.cache).isSome) →
      (prefetchCache cs res unc env).2.1 = unc ∧
        (∀ c, (dlookup c res).isSome →
          (dlookup c (prefetchCache cs res unc env).1).isSome) ∧
        ∀ c ∈ cs, (dlookup c (prefetchCache cs res unc env).1).isSome := by
  intro cs
  induction cs with
  | nil =>
    intro res unc env h
    simp [prefetchCache]
  | cons c0 cs ih =>
    intro res unc env h
    have hc0 := h c0 (List.mem_cons_self c0 cs)
    have htl : ∀ c ∈ cs, (dlookup (key5 c) env.cache).isSome ∨
        (dlookup (key4 c) env.cache).isSome :=
      fun c hc => h c (List.mem_cons_of_mem c0 hc)
    cases h5 : dlookup (key5 c0) env.cache with
    | some v =>
      have hrec := ih (dinsert c0 v res) unc
        { env with stats := record_cache_hit false env.stats } htl
      simp only [prefetchCache, h5] at hrec ⊢
      refine ⟨hrec.1, ?_, ?_⟩
      · intro c hc
        apply hrec.2.1
        rw [dlookup_dinsert]
        split
        · simp
        · exact hc
      · intro c hc
        rcases List.mem_cons.mp hc with rfl | hmem
        · exact hrec.2.1 c (by simp [dlookup_dinsert_self])
        · exact hrec.2.2 c hmem
    | none =>
      cases h4 : dlookup (key4 c0) env.cache with
      | some v =>
        have hrec := ih (dinsert c0 v res) unc
          { env with stats := record_cache_hit false env.stats } htl
        simp only [prefetchCache, h5, h4] at hrec ⊢
        refine ⟨hrec.1, ?_, ?_⟩
        · intro c hc
          apply hrec.2.1
          rw [dlookup_dinsert]
          split
          · simp
          · exact hc
        · intro c hc
          rcases List.mem_cons.mp hc with rfl | hmem
          · exact hrec.2.1 c (by simp [dlookup_dinsert_self])
          · exact hrec.2.2 c hmem
      | none =>
        rw [h5, h4] at hc0
        simp at hc0

/-- When every coordinate has a 5-decimal hit, each prefetched result is
exactly the 5-decimal cache entry. -/
theorem prefetchCache_key5_values :
    ∀ (cs : List Coord) (res : List (Coord × GeoDict)) (unc : List Coord) (env : GeoEnv),
      (∀ c ∈ cs, (dlookup (key5 c) env.cache).isSome) →
      (∀ c, c ∉ cs → dlookup c (prefetchCache cs res unc env).1 = dlookup c res) ∧
        ∀ c ∈ cs, dlookup c (prefetchCache cs res unc env).1 =
          dlookup (key5 c) env.cache := by
  intro cs
  induction cs with
  | nil =>
    intro res unc env h
    simp [prefetchCache]
  | cons c0 cs ih =>
    intro res unc env h
    have hc0 := h c0 (List.mem_cons_self c0 cs)
    have htl : ∀ c ∈ cs, (dlookup (key5 c) env.cache).isSome :=
      fun c hc => h c (List.mem_cons_of_mem c0 hc)
    cases h5 : dlookup (key5 c0) env.cache with
    | none => rw [h5] at hc0; simp at hc0
    | some v =>
      have hrec := ih (dinsert c0 v res) unc
        { env with stats := record_cache_hit false env.stats } htl
      simp only [prefetchCache, h5] at hrec ⊢
      constructor
      · intro c hc
        have hne : c ∉ cs := fun hmem => hc (List.mem_cons_of_mem c0 hmem)
        have hne0 : c0 ≠ c := fun he => hc (he ▸ List.mem_cons_self c0 cs)
        rw [hrec.1 c hne, dlookup_dinsert, if_neg hne0]
      · intro c hc
        rcases List.mem_cons.mp hc with rfl | hmem
        · by_cases hmem0 : c ∈ cs
          · rw [hrec.2 c hmem0]
          · rw [hrec.1 c hmem0, dlookup_dinsert_self, h5]
        · exact hrec.2 c hmem

/-- With no cache hit at either precision, the partition loop returns its
inputs with every coordinate appended to the uncached queue. -/
theorem prefetchCache_allmiss :
    ∀ (cs : List Coord) (res : List (Coord × GeoDict)) (unc : List Coord) (env : GeoEnv),
      (∀ c ∈ cs, dlookup (key5 c) env.cache = none ∧
        dlookup (key4 c) env.cache = none) →
      prefetchCache cs res unc env = (res, unc ++ cs, env) := by
  intro cs
  induction cs with
  | nil => intro res unc env h; simp [prefetchCache]
  | cons c0 cs ih =>
    intro res unc env h
    have hc0 := h c0 (List.mem_cons_self c0 cs)
    simp only [prefetchCache, hc0.1, hc0.2]
    rw [ih res (unc ++ [c0]) env fun c hc => h c (List.mem_cons_of_mem c0 hc)]
    simp

/-- Result coverage of the partition loop: existing results survive, each
input coordinate is either queued or answered, and the queue only contains
old queue entries or input coordinates. -/
theorem prefetchCache_results :
    ∀ (cs : List Coord) (res : List (Coord × GeoDict)) (unc : List Coord) (env : GeoEnv),
      (∀ c, (dlookup c res).isSome →
        (dlookup c (prefetchCache cs res unc env).1).isSome) ∧
        (∀ c ∈ cs, c ∈ (prefetchCache cs res unc env).2.1 ∨
          (dlookup c (prefetchCache cs res unc env).1).isSome) ∧
        ∀ c ∈ (prefetchCache cs res unc env).2.1, c ∈ unc ∨ c ∈ cs := by
  intro cs
  induction cs with
  | nil =>
    intro res unc env
    simp [prefetchCache]
  | cons c0 cs ih =>
    intro res unc env
    cases h5 : dlookup (key5 c0) env.cache with
    | some v =>
      have hrec := ih (dinsert c0 v res) unc
        { env with stats := record_cache_hit false env.stats }
      simp only [prefetchCache, h5] at hrec ⊢
      refine ⟨?_, ?_, ?_⟩
      · intro c hc
        apply hrec.1
        rw [dlookup_dinsert]
        split
        · simp
        · exact hc
      · intro c hc
        rcases List.mem_cons.mp hc with rfl | hmem
        · exact Or.inr (hrec.1 c (by simp [dlookup_dinsert_self]))
        · exact hrec.2.1 c hmem
      · intro c hc
        rcases hrec.2.2 c hc with hu | hcs
        · exact Or.inl hu
        · exact Or.inr (List.mem_cons_of_mem c0 hcs)
    | none =>
      cases h4 : dlookup (key4 c0) env.cache with
      | some v =>
        have hrec := ih (dinsert c0 v res) unc
          { env with stats := record_cache_hit false env.stats }
        simp only [prefetchCache, h5, h4] at hrec ⊢
        refine ⟨?_, ?_, ?_⟩
        · intro c hc
          apply hrec.1
          rw [dlookup_dinsert]
          split
          · simp
          · exact hc
        · intro c hc
          rcases List.mem_cons.mp hc with rfl | hmem
          · exact Or.inr (hrec.1 c (by simp [dlookup_dinsert_self]))
          · exact hrec.2.1 c hmem
        · intro c hc
          rcases hrec.2.2 c hc with hu | hcs
          · exact Or.inl hu
          · exact Or.inr (List.mem_cons_of_mem c0 hcs)
      | none =>
        have hrec := ih res (unc ++ [c0]) env
        simp only [prefetchCache, h5, h4] at hrec ⊢
        refine ⟨hrec.1, ?_, ?_⟩
        · intro c hc
          rcases List.mem_cons.mp hc with rfl | hmem
          · left
            have hfacts := prefetchCache_facts cs res (unc ++ [c]) env
            exact hfacts.2.2.2.2.2 c (by simp)
          · exact hrec.2.1 c hmem
        · intro c hc
          rcases hrec.2.2 c hc with hu | hcs
          · rcases List.mem_append.mp hu with h | h
            · exact Or.inl h
            · simp only [List.mem_singleton] at h
              exact Or.inr (h ▸ List.mem_cons_self c0 cs)
          · exact Or.inr (List.mem_cons_of_mem c0 hcs)

/-- The placeholder written by `single_reverse_geocode_fixed` for each
recoverable failure response (non-429 HTTP status, timeout, exception). -/
def errorResultOf : ProviderResponse → Option GeoDict
  | .httpError _ => some geocodingFailedDict
  | .netTimeout => some timeoutDict
  | .netError msg => some (errorDict msg)
  | _ => none

/-! ## C2 — batch resolve totality and failure placeholders -/

/-- C2 (amended): `batch_reverse_geocode` yields a mapping with an entry for
every input coordinate whenever each trace eventually answers with a non-429
response (first conjunct), and each recoverable failure response makes the
single lookup return an `is_water = true` placeholder while incrementing the
error counter (second conjunct).  `LocationAnalyzer.geocode_points` does NOT
satisfy this — see the counterexample. -/
theorem batch_resolve_total :
    (∀ (coords : List Coord) (bs : ℕ) (traces : Coord → List ProviderResponse)
        (env : GeoEnv),
        (∀ c ∈ coords, ∃ resp ∈ traces c, resp.isRateLimited = false) →
        ∃ m env', batch_reverse_geocode coords true bs traces env = some (m, env') ∧
          ∀ c ∈ coords, (dlookup c m).isSome) ∧
      ∀ (lat lon : ℚ) (env : GeoEnv) (resp : ProviderResponse)
        (rest : List ProviderResponse) (r : GeoDict),
        errorResultOf resp = some r →
        dlookup (key5 (lat, lon)) env.cache = none →
        single_reverse_geocode_fixed lat lon true (resp :: rest) env =
            some (r, GeoEnv.mk (dinsert (key5 (lat, lon)) r env.cache)
              (record_error false env.stats) env.delays) ∧
          r.is_water = true := by
  constructor
  · intro coords bs traces env hadq
    rcases hpre : prefetchCache coords [] [] env with ⟨res₀, pr⟩
    obtain ⟨unc₀, env₀⟩ := pr
    have hres := prefetchCache_results coords [] [] env
    rw [hpre] at hres
    by_cases hunc : unc₀ = []
    · refine ⟨res₀, env₀, ?_, ?_⟩
      · simp [batch_reverse_geocode, hpre, hunc]
      · intro c hc
        rcases hres.2.1 c hc with hu | hsome
        · rw [hunc] at hu; simp at hu
        · exact hsome
    · have hadq₀ : ∀ c ∈ unc₀, ∃ resp ∈ traces c, resp.isRateLimited = false := by
        intro c hc
        rcases hres.2.2 c hc with h | h
        · simp at h
        · exact hadq c h
      have hsome := processCoords_isSome traces unc₀ res₀ env₀ hadq₀
      cases hp : processCoords traces true unc₀ (res₀, env₀) with
      | none => rw [hp] at hsome; simp at hsome
      | some st =>
        obtain ⟨res₁, env₁⟩ := st
        have hbatch : batch_reverse_geocode coords true bs traces env =
            some (res₁, env₁) := by
          simp only [batch_reverse_geocode, hpre]
          rw [if_neg hunc]
          rw [processChunks_chunksOf traces true (min bs 25 - 1) unc₀.length unc₀
            (le_refl _) (res₀, env₀)]
          exact hp
        refine ⟨res₁, env₁, hbatch, ?_⟩
        intro c hc
        have hfacts := processCoords_facts traces unc₀ res₀ env₀ res₁ env₁ hp
        rcases hres.2.1 c hc with hu | hsome₀
        · exact hfacts.1.2 c hu
        · exact hfacts.1.1 c hsome₀
  · intro lat lon env resp rest r herr hmiss
    cases resp with
    | ok props => simp [errorResultOf] at herr
    | rateLimited => simp [errorResultOf] at herr
    | httpError code =>
      simp only [errorResultOf, Option.some.injEq] at herr
      subst herr
      constructor
      · simp [single_reverse_geocode_fixed, hmiss]
      · rfl
    | netTimeout =>
      simp only [errorResultOf, Option.some.injEq] at herr
      subst herr
      constructor
      · simp [single_reverse_geocode_fixed, hmiss]
      · rfl
    | netError msg =>
      simp only [errorResultOf, Option.some.injEq] at herr
      subst herr
      constructor
      · simp [single_reverse_geocode_fixed, hmiss]
      · rfl

/-- Witness for C2 at a one-coordinate batch and a timeout failure. -/
theorem batch_resolve_total_witness :
    (∀ c ∈ [((1 : ℚ), (2 : ℚ))], ∃ resp ∈ [ProviderResponse.ok none],
        resp.isRateLimited = false) ∧
      (∃ m env', batch_reverse_geocode [(1, 2)] true 25
          (fun _ => [ProviderResponse.ok none]) ⟨[], statsReset, []⟩ = some (m, env') ∧
          ∀ c ∈ [((1 : ℚ), (2 : ℚ))], (dlookup c m).isSome) ∧
      errorResultOf ProviderResponse.netTimeout = some timeoutDict ∧
      dlookup (key5 ((1 : ℚ), (2 : ℚ))) ([] : List (Coord × GeoDict)) = none ∧
      (single_reverse_geocode_fixed 1 2 true [ProviderResponse.netTimeout]
          ⟨[], statsReset, []⟩ =
          some (timeoutDict, GeoEnv.mk (dinsert (key5 (1, 2)) timeoutDict [])
            (record_error false statsReset) []) ∧
        timeoutDict.is_water = true) :=
  ⟨by decide,
    batch_resolve_total.1 [(1, 2)] 25 (fun _ => [ProviderResponse.ok none])
      ⟨[], statsReset, []⟩ (by decide),
    rfl, rfl,
    batch_resolve_total.2 1 2 ⟨[], statsReset, []⟩ ProviderResponse.netTimeout []
      timeoutDict rfl rfl⟩

/-- Counterexample for C2 as stated: under a provider outage returning HTTP
500, `LocationAnalyzer.geocode_points` returns a mapping with NO entry for
the input point (not a placeholder), and its exception fallback carries
`is_water = false`, not `is_water = true`. -/
theorem geocode_points_drops_on_http_error :
    dlookup (⟨0, 0, 0⟩ : LAPoint)
        (geocode_points [⟨0, 0, 0⟩] [] (fun _ => GPResponse.httpStatus 500)).1 = none ∧
      Option.map GeocodeResult.is_water
        (dlookup (⟨0, 0, 0⟩ : LAPoint)
          (geocode_points [⟨0, 0, 0⟩] [] (fun _ => GPResponse.exc "boom")).1) =
        some false := by
  constructor
  · decide
  · decide

/-! ## C7 — warmed-cache second resolve -/

/-- C7 (amended): after a successful `batch_reverse_geocode` call, running
the same coordinate set again against the warmed cache performs no network
interaction at all — the second call's outcome is a single value independent
of the provider traces, the cache, API-call counter, error counter and retry
delays are unchanged, and every coordinate is answered.  When the first call
started from an EMPTY cache the second call's results are moreover identical
to the first call's.  (With a pre-populated cache they can differ — see the
counterexample: a 4-decimal fallback hit can be shadowed by a fresh 5-decimal
entry written for a colliding coordinate.) -/
theorem warm_cache_second_resolve :
    ∀ (coords : List Coord) (bs : ℕ) (traces : Coord → List ProviderResponse)
      (env : GeoEnv) (res₁ : List (Coord × GeoDict)) (env₁ : GeoEnv),
      batch_reverse_geocode coords true bs traces env = some (res₁, env₁) →
      ∃ res₂ env₂,
        (∀ traces₂, batch_reverse_geocode coords true bs traces₂ env₁ =
          some (res₂, env₂)) ∧
          env₂.cache = env₁.cache ∧
          env₂.stats.api_calls = env₁.stats.api_calls ∧
          env₂.stats.errors = env₁.stats.errors ∧
          env₂.delays = env₁.delays ∧
          (∀ c ∈ coords, (dlookup c res₂).isSome) ∧
          (env.cache = [] → ∀ c ∈ coords, dlookup c res₂ = dlookup c res₁) := by
  intro coords bs traces env res₁ env₁ h1
  rcases hpre : prefetchCache coords [] [] env with ⟨res₀, pr⟩
  obtain ⟨unc₀, env₀⟩ := pr
  have hfacts := prefetchCache_facts coords [] [] env
  rw [hpre] at hfacts
  by_cases hunc : unc₀ = []
  · simp only [batch_reverse_geocode, hpre, hunc, if_true, Option.some.injEq,
      Prod.mk.injEq] at h1
    obtain ⟨rfl, rfl⟩ := h1
    have hhits : ∀ c ∈ coords, (dlookup (key5 c) env₀.cache).isSome ∨
        (dlookup (key4 c) env₀.cache).isSome := by
      intro c hc
      rcases hfacts.2.2.2.2.1 c hc with hu | h
      · rw [hunc] at hu; simp at hu
      · rw [hfacts.1]; exact h
    have hall := prefetchCache_allhit coords [] [] env₀ hhits
    have hfacts₂ := prefetchCache_facts coords [] [] env₀
    refine ⟨(prefetchCache coords [] [] env₀).1, (prefetchCache coords [] [] env₀).2.2,
      ?_, hfacts₂.1, hfacts₂.2.1, hfacts₂.2.2.1, hfacts₂.2.2.2.1, hall.2.2, ?_⟩
    · intro traces₂
      simp only [batch_reverse_geocode, hall.1, if_true]
    · intro h0 c hc
      have hmiss : ∀ c ∈ coords, dlookup (key5 c) env.cache = none ∧
          dlookup (key4 c) env.cache = none := by
        intro c _; rw [h0]; exact ⟨rfl, rfl⟩
      have hall0 := prefetchCache_allmiss coords [] [] env hmiss
      rw [hpre] at hall0
      have huncc : unc₀ = coords := by
        have := congrArg (fun t => t.2.1) hall0
        simpa using this
      have hnil : coords = [] := by rw [← huncc, hunc]
      rw [hnil] at hc
      simp at hc
  · simp only [batch_reverse_geocode, hpre] at h1
    rw [if_neg hunc] at h1
    rw [processChunks_chunksOf traces true (min bs 25 - 1) unc₀.length unc₀
      (le_refl _) (res₀, env₀)] at h1
    have hpf := processCoords_facts traces unc₀ res₀ env₀ res₁ env₁ h1
    have hk5 := processCoords_key5 traces unc₀ res₀ env₀ res₁ env₁ h1
    have hhits : ∀ c ∈ coords, (dlookup (key5 c) env₁.cache).isSome ∨
        (dlookup (key4 c) env₁.cache).isSome := by
      intro c hc
      rcases hfacts.2.2.2.2.1 c hc with hu | h
      · exact Or.inl (hk5 c hu)
      · rcases h with h5 | h4
        · rw [← hfacts.1] at h5
          obtain ⟨v, hv⟩ := Option.isSome_iff_exists.mp h5
          exact Or.inl (by rw [hpf.2.1 _ _ hv]; rfl)
        · rw [← hfacts.1] at h4
          obtain ⟨v, hv⟩ := Option.isSome_iff_exists.mp h4
          exact Or.inr (by rw [hpf.2.1 _ _ hv]; rfl)
    have hall := prefetchCache_allhit coords [] [] env₁ hhits
    have hfacts₂ := prefetchCache_facts coords [] [] env₁
    refine ⟨(prefetchCache coords [] [] env₁).1, (prefetchCache coords [] [] env₁).2.2,
      ?_, hfacts₂.1, hfacts₂.2.1, hfacts₂.2.2.1, hfacts₂.2.2.2.1, hall.2.2, ?_⟩
    · intro traces₂
      simp only [batch_reverse_geocode, hall.1, if_true]
    · intro h0 c hc
      have hmiss : ∀ c ∈ coords, dlookup (key5 c) env.cache = none ∧
          dlookup (key4 c) env.cache = none := by
        intro c _; rw [h0]; exact ⟨rfl, rfl⟩
      have hall0 := prefetchCache_allmiss coords [] [] env hmiss
      rw [hpre] at hall0
      have hres0 : res₀ = [] := by
        have := congrArg Prod.fst hall0
        simpa using this
      have huncc : unc₀ = coords := by
        have := congrArg (fun t => t.2.1) hall0
        simpa using this
      have hinv₁ : ∀ c r, dlookup c res₁ = some r →
          dlookup (key5 c) env₁.cache = some r := by
        apply hpf.2.2
        intro c r hcr
        rw [hres0] at hcr
        cases hcr
      have hc₁ : (dlookup c res₁).isSome := by
        apply hpf.1.2
        rw [huncc]; exact hc
      obtain ⟨r, hr⟩ := Option.isSome_iff_exists.mp hc₁
      have hk : dlookup (key5 c) env₁.cache = some r := hinv₁ c r hr
      have h5all : ∀ c ∈ coords, (dlookup (key5 c) env₁.cache).isSome := by
        intro c0 hc0
        apply hk5
        rw [huncc]
        exact hc0
      have hvals := prefetchCache_key5_values coords [] [] env₁ h5all
      rw [hvals.2 c hc, hk, hr]

/-- Witness for C7: a one-coordinate batch resolved from an empty cache. -/
theorem warm_cache_second_resolve_witness :
    batch_reverse_geocode [((1 : ℚ), (2 : ℚ))] true 25
        (fun _ => [ProviderResponse.ok none]) ⟨[], statsReset, []⟩ =
      some ([((1, 2), openWaterDict)],
        ⟨[(key5 (1, 2), openWaterDict)], record_api_call false 1 statsReset, []⟩) ∧
      ∃ res₂ env₂,
        (∀ traces₂, batch_reverse_geocode [((1 : ℚ), (2 : ℚ))] true 25 traces₂
            ⟨[(key5 (1, 2), openWaterDict)], record_api_call false 1 statsReset, []⟩ =
          some (res₂, env₂)) ∧
          env₂.cache =
            (GeoEnv.mk [(key5 (1, 2), openWaterDict)]
              (record_api_call false 1 statsReset) []).cache ∧
          env₂.stats.api_calls =
            (GeoEnv.mk [(key5 (1, 2), openWaterDict)]
              (record_api_call false 1 statsReset) []).stats.api_calls ∧
          env₂.stats.errors =
            (GeoEnv.mk [(key5 (1, 2), openWaterDict)]
              (record_api_call false 1 statsReset) []).stats.errors ∧
          env₂.delays =
            (GeoEnv.mk [(key5 (1, 2), openWaterDict)]
              (record_api_call false 1 statsReset) []).delays ∧
          (∀ c ∈ [((1 : ℚ), (2 : ℚ))], (dlookup c res₂).isSome) ∧
          ((GeoEnv.mk [] statsReset []).cache = [] →
            ∀ c ∈ [((1 : ℚ), (2 : ℚ))],
              dlookup c res₂ = dlookup c [((1, 2), openWaterDict)]) :=
  ⟨by decide,
    warm_cache_second_resolve [((1 : ℚ), (2 : ℚ))] 25
      (fun _ => [ProviderResponse.ok none]) ⟨[], statsReset, []⟩
      [((1, 2), openWaterDict)]
      ⟨[(key5 (1, 2), openWaterDict)], record_api_call false 1 statsReset, []⟩
      (by decide)⟩

/-- Counterexample for C7 as stated: with a pre-existing 4-decimal cache
entry at key (1, 0), the coordinate 1.00005 is answered from that entry in
the first call, but the colliding coordinate 1.000051 writes a fresh network
result under the shared 5-decimal key (1.00005, 0); the second call then
answers 1.00005 from that new entry, so the two calls' results differ. -/
theorem warm_cache_results_can_change :
    Option.map (fun p => dlookup ((mkRat 100005 100000 : ℚ), (0 : ℚ)) p.1)
        (batch_reverse_geocode
          [((mkRat 100005 100000 : ℚ), (0 : ℚ)), ((mkRat 1000051 1000000 : ℚ), (0 : ℚ))]
          true 25 (fun _ => [ProviderResponse.ok none])
          ⟨[((1, 0), GeoDict.mk (some "Old") none none "old" false)], statsReset, []⟩) =
      some (some (GeoDict.mk (some "Old") none none "old" false)) ∧
      Option.map (fun p => dlookup ((mkRat 100005 100000 : ℚ), (0 : ℚ)) p.1)
        (Option.bind
          (batch_reverse_geocode
            [((mkRat 100005 100000 : ℚ), (0 : ℚ)),
              ((mkRat 1000051 1000000 : ℚ), (0 : ℚ))]
            true 25 (fun _ => [ProviderResponse.ok none])
            ⟨[((1, 0), GeoDict.mk (some "Old") none none "old" false)], statsReset, []⟩)
          (fun p => batch_reverse_geocode
            [((mkRat 100005 100000 : ℚ), (0 : ℚ)),
              ((mkRat 1000051 1000000 : ℚ), (0 : ℚ))]
            true 25 (fun _ => [ProviderResponse.ok none]) p.2)) =
      some (some openWaterDict) ∧
      GeoDict.mk (some "Old") none none "old" false ≠ openWaterDict := by
  refine ⟨by decide, by decide, by decide⟩
